import Mathlib

/-!
Verification of the instax SP1 client (`instax/sp1.py`).

The development shallowly embeds the parts of `sp1.py` that the checked
properties concern.

Transport level (`SP1.connect`, `SP1.send_and_recieve`, `SP1.close`,
sp1.py lines 29-72 and 164-185): the caller-side polling loops are
modelled over a decisecond clock.  `int(time.time())` is `t / 10`, and
each `time.sleep(0.1)` advances `t` by one.  The Python guard
`int(time.time()) < start + timeout` (with `start = int(time.time())`
taken on entry at time `t0`, so `start = t0 / 10`) holds iff
`t < (t0 / 10 + timeout) * 10`, so the number of remaining sleep steps
from time `t` is `(t0 / 10 + timeout) * 10 - t`; the loops recurse
structurally on that count.  The worker's reply queue is modelled as the
list of replies it has enqueued, in order; `reply_q.get(False)` pops the
head and raises `queue.Empty` on the empty list.

Orchestration level (`SP1.printPhoto`, `SP1.checkPrintStatus`,
`SP1.getPrinterInformation`, sp1.py lines 187-273): each session-level
operation (a connect, one command round trip, or a close) either returns
a decoded reply packet or raises; the environment is an oracle scripting
the outcome of the n-th such operation.  The session internals
(`comms.py`, `packet.py`) are not part of the sources under inspection,
so decoded replies are modelled from the spec as records carrying exactly
the fields `sp1.py` reads: the `battery`, `printCount` and `returnCode`
header fields and a version / model-name / print-history payload.
Python's float arithmetic in the progress computation
`40 + 30 * bytesSent / len(imageBytes)` is modelled exactly in `ℚ`; at
every input exhibited below the compared values are far enough apart
that IEEE rounding cannot change any stated (in)equality.
-/

set_option maxRecDepth 8000

namespace Instax

/-- Reply envelope tag, from `comms.ClientReply` as consumed by `sp1.py`. -/
inductive ReplyType where
  | SUCCESS
  | ERROR
deriving DecidableEq, Repr

/-- Reply envelope: a tag plus optional data (raw bytes on a RECEIVE
success, an error detail on failure, `none` on a plain acknowledgement -
`sp1.send_and_recieve` explicitly tests `reply.data is not None`). -/
structure ClientReply where
  type : ReplyType
  data : Option (List Nat)
deriving DecidableEq, Repr

/-- The two transport-level exceptions raised by `sp1.py`:
`ConnectError(reply.data)` and `CommandTimedOutException()`. -/
inductive SPError where
  | connectError (detail : Option (List Nat))
  | commandTimedOut
deriving DecidableEq, Repr

/-- Polling loop of `SP1.connect` (sp1.py lines 37-48).  `t` is the
decisecond clock, the second argument the remaining sleep steps before
the guard `int(time.time()) < start + timeout` turns false.  A reply at
the head of the queue is consumed without advancing time; an empty queue
means `queue.Empty`, i.e. `time.sleep(0.1)`. -/
def connectAux (q : List ClientReply) : Nat → Nat → Except SPError Unit × Nat
  | t, 0 => (.error .commandTimedOut, t)
  | t, fuel + 1 =>
    match q with
    | reply :: _ =>
      if reply.type = .SUCCESS then (.ok (), t)
      else (.error (.connectError reply.data), t)
    | [] => connectAux [] (t + 1) fuel

/-- `SP1.connect`'s wait for the worker's reply, entered at decisecond
time `t0` with polling bound `timeout` seconds.  Returns the outcome and
the decisecond time at which the loop exits. -/
def connect (q : List ClientReply) (t0 timeout : Nat) : Except SPError Unit × Nat :=
  connectAux q t0 ((t0 / 10 + timeout) * 10 - t0)

/-- Polling loop of `SP1.send_and_recieve` (sp1.py lines 56-72).  A
reply whose `data` is `None` falls through both branches of
`if reply.data is not None` and is silently dropped, without sleeping. -/
def sendRecvAux : List ClientReply → Nat → Nat → Except SPError ClientReply × Nat
  | _, t, 0 => (.error .commandTimedOut, t)
  | [], t, fuel + 1 => sendRecvAux [] (t + 1) fuel
  | reply :: rest, t, fuel + 1 =>
    match reply.data with
    | Option.none => sendRecvAux rest t (fuel + 1)
    | some _ =>
      if reply.type = .SUCCESS then (.ok reply, t)
      else (.error (.connectError reply.data), t)
termination_by q _ fuel => (fuel, q)

/-- `SP1.send_and_recieve`'s wait for a data-carrying reply, entered at
decisecond time `t0` with polling bound `timeout` seconds. -/
def send_and_recieve (q : List ClientReply) (t0 timeout : Nat) :
    Except SPError ClientReply × Nat :=
  sendRecvAux q t0 ((t0 / 10 + timeout) * 10 - t0)

deriving instance DecidableEq for Except

/-- Outcome of `SP1.close` (sp1.py lines 164-184): the returned or raised
result, whether `self.comms.join()` ran, whether `self.comms = None` ran,
and the exit time. -/
structure CloseResult where
  result : Except SPError Unit
  joined : Bool
  commsCleared : Bool
  finalT : Nat
deriving DecidableEq, Repr

/-- Polling loop of `SP1.close`.  On a SUCCESS reply it joins the worker
and clears `self.comms` before returning; on any other reply it raises
`ConnectError(reply.data)` at once, joining nothing and clearing nothing;
on timeout it joins the worker and clears `self.comms` before raising
`CommandTimedOutException`. -/
def closeAux (q : List ClientReply) : Nat → Nat → CloseResult
  | t, 0 => ⟨.error .commandTimedOut, true, true, t⟩
  | t, fuel + 1 =>
    match q with
    | reply :: _ =>
      if reply.type = .SUCCESS then ⟨.ok (), true, true, t⟩
      else ⟨.error (.connectError reply.data), false, false, t⟩
    | [] => closeAux [] (t + 1) fuel

/-- `SP1.close`, entered at decisecond time `t0` with polling bound
`timeout` seconds (the method's default is 10). -/
def close (q : List ClientReply) (t0 timeout : Nat) : CloseResult :=
  closeAux q t0 ((t0 / 10 + timeout) * 10 - t0)

/-- Client state set up by `SP1.__init__` (sp1.py lines 18-27).  Line 25
of the source reads `self.timeout = 10`: the constructor's `timeout`
parameter is accepted and then ignored. -/
structure SP1State where
  ip : String
  port : Nat
  timeout : Nat
  pinCode : Nat
deriving DecidableEq, Repr

/-- `SP1.__init__(ip, port, timeout, pinCode)`, faithful to line 25. -/
def SP1init (ip : String) (port timeout pinCode : Nat) : SP1State :=
  { ip := ip, port := port, timeout := 10, pinCode := pinCode }

/-- `SP1.connect` polls with the stored `self.timeout` as its bound. -/
def SP1connect (st : SP1State) (q : List ClientReply) (t0 : Nat) :
    Except SPError Unit × Nat :=
  connect q t0 st.timeout

/-- Loop body of `SP1.checkPrintStatus` (sp1.py lines 265-273): up to
`fuel` more Type195 commands; `codes i` is the `returnCode` header field
of the reply to the `(i+1)`-st Type195 command issued, `issued` the
number issued so far.  Returns the boolean result and the total number of
Type195 commands issued.  The Python test
`printStateCmd.header['returnCode'] is Packet.RTN_E_RCV_FRAME` is
modelled as equality with the sentinel value (`packet.py` is outside the
inspected sources; per the spec the return code is compared against the
reserved RTN_E_RCV_FRAME sentinel). -/
def checkPrintStatusAux (sentinel : Nat) (codes : Nat → Nat) : Nat → Nat → Bool × Nat
  | 0, issued => (false, issued)
  | fuel + 1, issued =>
    if codes issued = sentinel then (true, issued + 1)
    else checkPrintStatusAux sentinel codes fuel (issued + 1)

/-- `SP1.checkPrintStatus(timeout)` over a scripted sequence of Type195
reply return codes (the method's default `timeout` is 30; it sleeps one
second after each non-sentinel reply). -/
def checkPrintStatus (sentinel : Nat) (codes : Nat → Nat) (timeout : Nat) : Bool × Nat :=
  checkPrintStatusAux sentinel codes timeout 0

/-- Payload shapes of the decoded replies that `sp1.py` reads, modelled
from the spec (`packet.py` is outside the inspected sources): an opaque
payload used whole (the Version reply), a `modelName` field, a
`printHistory` field, or nothing. -/
inductive PayloadVal where
  | empty
  | raw (s : String)
  | modelName (s : String)
  | printHistory (h : List Nat)
deriving DecidableEq, Repr

/-- Decoded reply packet, carrying exactly the fields `sp1.py` reads:
the `battery`, `printCount` and `returnCode` header fields and the
payload. -/
structure DecodedPacket where
  battery : Nat
  printCount : Nat
  returnCode : Nat
  payload : PayloadVal
deriving DecidableEq, Repr

/-- The session-level operations `printPhoto` and `getPrinterInformation`
perform, with the arguments `sp1.py` passes. -/
inductive SPCall where
  | connect
  | close
  | version
  | modelName
  | printCount
  | prePrint (cmdNumber : Nat)
  | lock (lockState : Nat)
  | reset
  | prepImage (format opts imgLength : Nat)
  | sendImage (sequenceNumber : Nat) (payloadBytes : List Nat)
  | t83
  | t195
  | lockState
deriving DecidableEq, Repr

/-- Outcome of one session-level operation: a decoded reply, or a raised
transport/protocol exception. -/
inductive CallOutcome where
  | ok (pkt : DecodedPacket)
  | err (e : SPError)
deriving DecidableEq, Repr

/-- Scripted printer environment: the outcome of the n-th session-level
operation. -/
def Oracle : Type := Nat → CallOutcome

/-- An environment in which every session-level operation succeeds. -/
def allOk (pkts : Nat → DecodedPacket) : Oracle := fun n => .ok (pkts n)

/-- Observable events of an orchestrator run: session calls made and
progress-callback invocations `(current, total, status)`. -/
inductive Event where
  | call (c : SPCall)
  | report (current : ℚ) (total : Nat) (status : String)
deriving DecidableEq, Repr

/-- State of an orchestrator run: how many session operations have been
consumed from the oracle, the event trace so far, and the pending
exception (if one was raised, everything after it is skipped, as the
Python exception would abort the method). -/
structure Run where
  idx : Nat
  trace : List Event
  err : Option SPError
deriving DecidableEq, Repr

def run0 : Run := ⟨0, [], Option.none⟩

/-- Perform one session call: consult the oracle and record the call
event; an error outcome records the exception, after which every later
operation is skipped. -/
def rcallR (o : Oracle) (c : SPCall) (r : Run) : Run × Option DecodedPacket :=
  if r.err.isSome then (r, Option.none)
  else
    match o r.idx with
    | .ok p => ({ r with idx := r.idx + 1, trace := r.trace ++ [.call c] }, some p)
    | .err e =>
      ({ r with idx := r.idx + 1, trace := r.trace ++ [.call c], err := some e },
       Option.none)

/-- A session call whose reply value the orchestrator does not use. -/
def rcall (o : Oracle) (c : SPCall) (r : Run) : Run := (rcallR o c r).1

/-- Invoke the progress callback: `progress(current, 100, status)`. -/
def rreport (current : ℚ) (status : String) (r : Run) : Run :=
  if r.err.isSome then r
  else { r with trace := r.trace ++ [.report current 100 status] }

def st0 : String := "Connecting to instax Printer.           "
def st10 : String := "Connected! - Sending Pre Print Commands."
def st20 : String := "Locking Printer for Print.               "
def st30 : String := "Resetting Printer.                         "
def st40 : String := "About to send Image.                       "
def st70 : String := "Image Print Started.                       "
def st90 : String := "Checking status of print.                    "
def stDone : String := "Print is complete!                       \n"
def stTimeout : String := "Timed out waiting for print..            \n"

/-- Python `'Sent image segment %s.         ' % segment`. -/
def segStatus (segment : Nat) : String :=
  "Sent image segment " ++ toString segment ++ ".         "

/-- Image-transfer loop of `printPhoto` (sp1.py lines 237-247): while
bytes remain, slice the next 960 bytes (zero-padding a short final
slice), send it with the current sequence number, then report
`40 + 30 * bytesSent / len(imageBytes)` where `bytesSent` has already
been advanced by a full 960. -/
def sendImageLoop (o : Oracle) (img : List Nat) (bytesToSend bytesSent segment : Nat)
    (r : Run) : Run :=
  if h : 0 < bytesToSend then
    let segmentBytes :=
      if 960 ≤ bytesToSend then (img.drop bytesSent).take 960
      else (img.drop bytesSent).take bytesToSend ++ List.replicate (960 - bytesToSend) 0
    let r1 := rcall o (.sendImage segment segmentBytes) r
    let r2 := rreport (40 + 30 * ((bytesSent + 960 : Nat) : ℚ) / (img.length : ℚ))
      (segStatus (segment + 1)) r1
    sendImageLoop o img (bytesToSend - 960) (bytesSent + 960) (segment + 1) r2
  else r
termination_by bytesToSend
decreasing_by omega

/-- The completion poll as run inside `printPhoto`: up to `fuel` Type195
session calls, stopping at the first reply whose `returnCode` equals the
sentinel. -/
def rcheckStatus (sentinel : Nat) (o : Oracle) : Nat → Run → Run × Bool
  | 0, r => (r, false)
  | fuel + 1, r =>
    match rcallR o .t195 r with
    | (r1, some p) =>
      if p.returnCode = sentinel then (r1, true)
      else rcheckStatus sentinel o fuel r1
    | (r1, Option.none) => (r1, false)

/-- `printPhoto` lines 258-262: `checkPrintStatus(30)` followed by the
final `progress(100, 100, ...)` report whose status text depends on the
poll outcome. -/
def rfinishStatus (sentinel : Nat) (o : Oracle) (r : Run) : Run :=
  let p := rcheckStatus sentinel o 30 r
  if p.2 then rreport 100 stDone p.1 else rreport 100 stTimeout p.1

/-- The operations of `SP1.printPhoto` (sp1.py lines 204-263), in source
order. -/
def printPhotoOps (sentinel : Nat) (o : Oracle) (img : List Nat) : List (Run → Run) :=
  [ rreport 0 st0,
    rcall o .connect,
    rreport 10 st10,
    rcall o (.prePrint 1), rcall o (.prePrint 2), rcall o (.prePrint 3),
    rcall o (.prePrint 4), rcall o (.prePrint 5), rcall o (.prePrint 6),
    rcall o (.prePrint 7), rcall o (.prePrint 8),
    rcall o .close,
    rcall o .connect,
    rreport 20 st20,
    rcall o (.lock 1),
    rcall o .close,
    rcall o .connect,
    rreport 30 st30,
    rcall o .reset,
    rcall o .close,
    rcall o .connect,
    rreport 40 st40,
    rcall o (.prepImage 2 0 img.length),
    sendImageLoop o img img.length 0 0,
    rcall o .t83,
    rcall o .close,
    rreport 70 st70,
    rcall o .connect,
    rcall o .lockState,
    rcall o .version,
    rcall o .modelName,
    rreport 90 st90,
    rfinishStatus sentinel o,
    rcall o .close ]

/-- `SP1.printPhoto(imageBytes, progress)` over a scripted environment. -/
def printPhoto (sentinel : Nat) (o : Oracle) (img : List Nat) : Run :=
  (printPhotoOps sentinel o img).foldl (fun r f => f r) run0

/-- The mapping returned by `SP1.getPrinterInformation` (sp1.py lines
193-200).  `model` and `count` are `Option`s because the Python dict
accesses `payload['modelName']` and `payload['printHistory']` only
succeed when the reply payload has that shape. -/
structure PrinterInformation where
  version : PayloadVal
  model : Option String
  battery : Nat
  printCount : Nat
  specs : String
  count : Option (List Nat)
deriving DecidableEq, Repr

def payloadModelName : PayloadVal → Option String
  | .modelName s => some s
  | _ => Option.none

def payloadPrintHistory : PayloadVal → Option (List Nat)
  | .printHistory h => some h
  | _ => Option.none

/-- `SP1.getPrinterInformation()` (sp1.py lines 187-202): connect, the
Version, ModelName and PrintCount queries, build the mapping, close. -/
def getPrinterInformation (o : Oracle) : Run × Option PrinterInformation :=
  let r := rcall o .connect run0
  let pv := rcallR o .version r
  let pm := rcallR o .modelName pv.1
  let pc := rcallR o .printCount pm.1
  match pv.2, pm.2, pc.2 with
  | some v, some m, some c =>
    (rcall o .close pc.1,
     some { version := v.payload,
            model := payloadModelName m.payload,
            battery := v.battery,
            printCount := v.printCount,
            specs := "unknown",
            count := payloadPrintHistory c.payload })
  | _, _, _ => (rcall o .close pc.1, Option.none)

/-- The progress-callback invocations in a trace, in order. -/
def reports : List Event → List (ℚ × Nat × String)
  | [] => []
  | .call _ :: es => reports es
  | .report c t s :: es => (c, t, s) :: reports es

/-- The `current` arguments passed to the progress callback, in order. -/
def currents (es : List Event) : List ℚ := (reports es).map (fun p => p.1)

/-- The SendImage segments in a trace: (sequence number, payload). -/
def sentSegments : List Event → List (Nat × List Nat)
  | [] => []
  | .call (.sendImage n p) :: es => (n, p) :: sentSegments es
  | .call _ :: es => sentSegments es
  | .report _ _ _ :: es => sentSegments es

/-- `ceil(b / 960)`: the number of segments the transfer loop sends for
`b` remaining bytes. -/
def numSegs (b : Nat) : Nat := (b + 959) / 960

/-- The events the image-transfer loop emits, as a pure function of its
counters (the oracle-independent shape of `sendImageLoop` when every
call succeeds). -/
def segEvents (img : List Nat) (bytesToSend bytesSent segment : Nat) : List Event :=
  if h : 0 < bytesToSend then
    let segmentBytes :=
      if 960 ≤ bytesToSend then (img.drop bytesSent).take 960
      else (img.drop bytesSent).take bytesToSend ++ List.replicate (960 - bytesToSend) 0
    Event.call (.sendImage segment segmentBytes) ::
      Event.report (40 + 30 * ((bytesSent + 960 : Nat) : ℚ) / (img.length : ℚ)) 100
        (segStatus (segment + 1)) ::
      segEvents img (bytesToSend - 960) (bytesSent + 960) (segment + 1)
  else []
termination_by bytesToSend
decreasing_by omega

/-- How many Type195 polls a scripted code sequence consumes (starting at
oracle index `i`, with `fuel` attempts left) and whether the sentinel was
seen. -/
def pollCount (sentinel : Nat) (codes : Nat → Nat) : Nat → Nat → Nat × Bool
  | 0, _ => (0, false)
  | fuel + 1, i =>
    if codes i = sentinel then (1, true)
    else
      let p := pollCount sentinel codes fuel (i + 1)
      (p.1 + 1, p.2)

/-- Return codes scripted by a packet sequence. -/
def codesOf (pkts : Nat → DecodedPacket) (i : Nat) : Nat := (pkts i).returnCode

/-- Trace of a successful `printPhoto` run before the image transfer. -/
def preSegTrace (len : Nat) : List Event :=
  [.report 0 100 st0, .call .connect, .report 10 100 st10,
   .call (.prePrint 1), .call (.prePrint 2), .call (.prePrint 3),
   .call (.prePrint 4), .call (.prePrint 5), .call (.prePrint 6),
   .call (.prePrint 7), .call (.prePrint 8),
   .call .close, .call .connect, .report 20 100 st20, .call (.lock 1),
   .call .close, .call .connect, .report 30 100 st30, .call .reset,
   .call .close, .call .connect, .report 40 100 st40,
   .call (.prepImage 2 0 len)]

/-- Trace of a successful `printPhoto` run between the image transfer and
the completion poll. -/
def postSegTrace : List Event :=
  [.call .t83, .call .close, .report 70 100 st70, .call .connect,
   .call .lockState, .call .version, .call .modelName, .report 90 100 st90]

/-- Trace of `p` Type195 polls. -/
def pollTrace (p : Nat) : List Event := List.replicate p (.call .t195)

/-- Final report and close of a successful `printPhoto` run. -/
def finishTrace (found : Bool) : List Event :=
  [.report 100 100 (if found then stDone else stTimeout), .call .close]

/-- Result of the completion poll inside a fully successful `printPhoto`
run: the poll starts at oracle index `24 + numSegs L` (18 session calls
before the transfer loop, `numSegs L` SendImage calls, 6 calls after). -/
def pollRes (sentinel : Nat) (pkts : Nat → DecodedPacket) (L : Nat) : Nat × Bool :=
  pollCount sentinel (codesOf pkts) 30 (24 + numSegs L)

/-- A plain reply packet (return code 0) for scripting environments. -/
def defaultPacket : DecodedPacket := ⟨0, 0, 0, .empty⟩

/-- A reply packet whose return code is 1 - distinct from the sentinel
value 0 used in the concrete scripted runs below. -/
def pktRC1 : DecodedPacket := ⟨0, 0, 1, .empty⟩

/-- Invariants every orchestrator operation satisfies over any oracle:
an already-raised exception freezes the run, the oracle index only grows,
a run that ends clean consulted only successful calls, a run that ends in
an exception got it from the first failing consulted call, and every
progress report carries total 100. -/
structure Preserves (o : Oracle) (f : Run → Run) : Prop where
  skip : ∀ r, r.err.isSome → f r = r
  mono : ∀ r, r.idx ≤ (f r).idx
  back : ∀ r, (f r).err = Option.none → r.err = Option.none
  okCalls : ∀ r, r.err = Option.none → (f r).err = Option.none →
    ∀ n, r.idx ≤ n → n < (f r).idx → ∃ p, o n = .ok p
  firstErr : ∀ r e, r.err = Option.none → (f r).err = some e →
    ∃ n, r.idx ≤ n ∧ n < (f r).idx ∧ o n = .err e ∧
      ∀ m, r.idx ≤ m → m < n → ∃ p, o m = .ok p
  totals : ∀ r, (∀ p ∈ reports r.trace, p.2.1 = 100) →
    ∀ p ∈ reports (f r).trace, p.2.1 = 100

/-! ### Transport-level lemmas -/

theorem connectAux_nil : ∀ fuel t, connectAux [] t fuel = (.error .commandTimedOut, t + fuel)
  | 0, t => rfl
  | fuel + 1, t => by
    rw [connectAux, connectAux_nil fuel (t + 1)]
    ring_nf

theorem sendRecvAux_nil :
    ∀ fuel t, sendRecvAux [] t fuel = (.error .commandTimedOut, t + fuel)
  | 0, t => by rw [sendRecvAux, Nat.add_zero]
  | fuel + 1, t => by
    rw [sendRecvAux, sendRecvAux_nil fuel (t + 1)]
    ring_nf

theorem closeAux_nil :
    ∀ fuel t, closeAux [] t fuel = ⟨.error .commandTimedOut, true, true, t + fuel⟩
  | 0, t => rfl
  | fuel + 1, t => by
    rw [closeAux, closeAux_nil fuel (t + 1)]
    ring_nf

/-- With at least one second on the guard, the polling bound in
deciseconds is positive. -/
theorem fuel_pos (t0 timeout : Nat) (h : 1 ≤ timeout) :
    ∃ fuel, (t0 / 10 + timeout) * 10 - t0 = fuel + 1 := by
  have h10 : t0 / 10 * 10 + 9 + 1 > t0 := by omega
  exact ⟨(t0 / 10 + timeout) * 10 - t0 - 1, by omega⟩

/-- Dropping the data-less prefix: `send_and_recieve` decides on the
first reply that carries data, consuming the prefix in zero time. -/
theorem sendRecvAux_skip (pre : List ClientReply) (r : ClientReply) (rest : List ClientReply)
    (t fuel : Nat) (hpre : ∀ x ∈ pre, x.data = Option.none) (hr : r.data ≠ Option.none) :
    sendRecvAux (pre ++ r :: rest) t (fuel + 1) =
      if r.type = .SUCCESS then (.ok r, t) else (.error (.connectError r.data), t) := by
  induction pre with
  | nil =>
    obtain ⟨ty, data⟩ := r
    match data with
    | Option.none => exact absurd rfl hr
    | some v => rw [List.nil_append, sendRecvAux]
  | cons a as ih =>
    obtain ⟨ty, adata⟩ := a
    have ha : adata = Option.none := hpre ⟨ty, adata⟩ (List.mem_cons_self _ _)
    subst ha
    rw [List.cons_append, sendRecvAux]
    exact ih (fun x hx => hpre x (List.mem_cons_of_mem _ hx))

/-! ### C4 - timeout behaviour with a silent worker -/

/-- C4: if the worker never enqueues a reply, `connect`,
`send_and_recieve` and `close` each poll exactly until the clock reaches
`start + timeout` - the exit instant is decisecond
`max t0 ((t0 / 10 + timeout) * 10)`, the first `t ≥ t0` at which the
guard `int(time.time()) < start + timeout` fails - and then raise
`CommandTimedOut`; `close` additionally joins the worker and clears
`self.comms` before raising. -/
theorem C4_timeouts (t0 timeout : Nat) :
    connect [] t0 timeout = (.error .commandTimedOut, max t0 ((t0 / 10 + timeout) * 10))
    ∧ send_and_recieve [] t0 timeout =
        (.error .commandTimedOut, max t0 ((t0 / 10 + timeout) * 10))
    ∧ close [] t0 timeout =
        ⟨.error .commandTimedOut, true, true, max t0 ((t0 / 10 + timeout) * 10)⟩ := by
  have hmax : t0 + ((t0 / 10 + timeout) * 10 - t0) = max t0 ((t0 / 10 + timeout) * 10) := by
    omega
  refine ⟨?_, ?_, ?_⟩
  · rw [connect, connectAux_nil, hmax]
  · rw [send_and_recieve, sendRecvAux_nil, hmax]
  · rw [close, closeAux_nil, hmax]

/-! ### C9 - the constructor's timeout parameter is ignored -/

/-- C9 (code bug evidence): `SP1.__init__` stores the literal 10 into
`self.timeout` whatever `timeout` argument is passed (sp1.py line 25), so
a client constructed with `timeout=5` still polls for 10 seconds inside
`connect` - with no reply and a clock starting at 0 the loop runs to
decisecond 100, not 50. -/
theorem C9_ctor_timeout_ignored :
    (∀ ip port timeout pinCode, (SP1init ip port timeout pinCode).timeout = 10)
    ∧ (SP1init "192.168.0.251" 8080 5 1111).timeout ≠ 5
    ∧ SP1connect (SP1init "192.168.0.251" 8080 5 1111) [] 0 =
        (.error .commandTimedOut, 100) := by
  refine ⟨fun _ _ _ _ => rfl, by decide, ?_⟩
  have h : connect [] 0 10 = (.error .commandTimedOut, 100) := by
    rw [connect, connectAux_nil]
  exact h

/-! ### C10 - close on an ERROR reply skips the worker teardown -/

/-- C10: if `close` receives a non-SUCCESS reply within its timeout it
raises `ConnectError` at once, with `self.comms.join()` not run and
`self.comms` not cleared - unlike the SUCCESS path and the timeout path,
which both join the worker and clear `self.comms`. -/
theorem C10_close_error_no_join (d : Option (List Nat)) (rest : List ClientReply)
    (t0 timeout : Nat) (h : 1 ≤ timeout) :
    close (⟨.ERROR, d⟩ :: rest) t0 timeout =
      ⟨.error (.connectError d), false, false, t0⟩
    ∧ (∀ d2 (rest2 : List ClientReply),
        close (⟨.SUCCESS, d2⟩ :: rest2) t0 timeout = ⟨.ok (), true, true, t0⟩)
    ∧ (close [] t0 timeout).joined = true ∧ (close [] t0 timeout).commsCleared = true := by
  obtain ⟨fuel, hf⟩ := fuel_pos t0 timeout h
  refine ⟨?_, fun d2 rest2 => ?_, ?_, ?_⟩
  · rw [close, hf, closeAux]; simp
  · rw [close, hf, closeAux]; simp
  · rw [close, closeAux_nil]
  · rw [close, closeAux_nil]

theorem C10_close_error_no_join_witness :
    1 ≤ 10
    ∧ close [⟨.ERROR, some [1]⟩] 0 10 = ⟨.error (.connectError (some [1])), false, false, 0⟩ :=
  ⟨by decide, (C10_close_error_no_join (some [1]) [] 0 10 (by decide)).1⟩

/-! ### C5 - which delivered reply decides `send_and_recieve` -/

/-- C5 counterexample: the first reply delivered to `send_and_recieve`
has type SUCCESS (a data-less SEND acknowledgement), yet the call does
not return it - the `reply.data is not None` test drops it and the
second, ERROR-typed reply decides the outcome.  So neither does a
SUCCESS-typed delivered reply always produce a return, nor does the
first delivered reply decide the outcome. -/
theorem C5_first_reply_cex :
    (send_and_recieve [⟨.SUCCESS, Option.none⟩, ⟨.ERROR, some [7]⟩] 0 5).1 =
      .error (.connectError (some [7])) := by
  rw [send_and_recieve, show (0 / 10 + 5) * 10 - 0 = 49 + 1 from by norm_num,
    show ([⟨.SUCCESS, Option.none⟩, ⟨.ERROR, some [7]⟩] : List ClientReply) =
      [⟨.SUCCESS, Option.none⟩] ++ [⟨.ERROR, some [7]⟩] from rfl,
    sendRecvAux_skip [⟨.SUCCESS, Option.none⟩] ⟨.ERROR, some [7]⟩ [] 0 49
      (by intro x hx; simp at hx; rw [hx]) (by simp)]
  simp

/-- C5 amended: the first delivered reply *carrying data* decides the
outcome of `send_and_recieve` - SUCCESS returns that reply, ERROR raises
`ConnectError` with its detail; data-less replies (such as SEND
acknowledgements) are dropped without affecting the clock. -/
theorem C5_first_data_reply_decides (pre : List ClientReply) (r : ClientReply)
    (rest : List ClientReply) (t0 timeout : Nat) (htimeout : 1 ≤ timeout)
    (hpre : ∀ x ∈ pre, x.data = Option.none) (hr : r.data ≠ Option.none) :
    (send_and_recieve (pre ++ r :: rest) t0 timeout).1 =
      if r.type = .SUCCESS then .ok r else .error (.connectError r.data) := by
  obtain ⟨fuel, hf⟩ := fuel_pos t0 timeout htimeout
  rw [send_and_recieve, hf, sendRecvAux_skip pre r rest t0 fuel hpre hr]
  by_cases hty : r.type = .SUCCESS <;> simp [hty]

theorem C5_first_data_reply_decides_witness :
    1 ≤ 5
    ∧ (∀ x ∈ [(⟨.SUCCESS, Option.none⟩ : ClientReply)], x.data = Option.none)
    ∧ (⟨.SUCCESS, some [9]⟩ : ClientReply).data ≠ Option.none
    ∧ (send_and_recieve [⟨.SUCCESS, Option.none⟩, ⟨.SUCCESS, some [9]⟩] 0 5).1 =
        .ok ⟨.SUCCESS, some [9]⟩ := by
  refine ⟨by decide, by decide, by decide, ?_⟩
  have h := C5_first_data_reply_decides [⟨.SUCCESS, Option.none⟩] ⟨.SUCCESS, some [9]⟩ []
    0 5 (by decide) (by decide) (by decide)
  simpa using h

/-! ### C3 - completion-poll termination -/

theorem checkPrintStatusAux_none (sentinel : Nat) (codes : Nat → Nat) :
    ∀ fuel i, (∀ j, j < fuel → codes (i + j) ≠ sentinel) →
      checkPrintStatusAux sentinel codes fuel i = (false, i + fuel)
  | 0, i, _ => rfl
  | fuel + 1, i, h => by
    rw [checkPrintStatusAux, if_neg (by simpa using h 0 (by omega))]
    rw [checkPrintStatusAux_none sentinel codes fuel (i + 1)
      (fun j hj => by
        have := h (j + 1) (by omega)
        rwa [show i + 1 + j = i + (j + 1) from by omega])]
    rw [show i + 1 + fuel = i + (fuel + 1) from by omega]

theorem checkPrintStatusAux_found (sentinel : Nat) (codes : Nat → Nat) :
    ∀ fuel i k, k < fuel → codes (i + k) = sentinel →
      (∀ j, j < k → codes (i + j) ≠ sentinel) →
      checkPrintStatusAux sentinel codes fuel i = (true, i + k + 1)
  | 0, _, k, hk, _, _ => absurd hk (by omega)
  | fuel + 1, i, k, hk, hfound, hbefore => by
    match k with
    | 0 =>
      rw [checkPrintStatusAux, if_pos (by simpa using hfound)]
    | k + 1 =>
      rw [checkPrintStatusAux, if_neg (by simpa using hbefore 0 (by omega))]
      rw [checkPrintStatusAux_found sentinel codes fuel (i + 1) k (by omega)
        (by have := hfound; rwa [show i + 1 + k = i + (k + 1) from by omega])
        (fun j hj => by
          have := hbefore (j + 1) (by omega)
          rwa [show i + 1 + j = i + (j + 1) from by omega])]
      rw [show i + 1 + k + 1 = i + (k + 1) + 1 from by omega]

/-- C3: if the Nth Type195 reply (1-based, N ≤ timeout) is the first
whose return code equals the sentinel, `checkPrintStatus` returns True
after issuing exactly N Type195 commands; if no reply within `timeout`
attempts carries the sentinel, it issues exactly `timeout` Type195
commands and returns False. -/
theorem C3_checkPrintStatus (sentinel : Nat) (codes : Nat → Nat) (timeout N : Nat) :
    ((1 ≤ N ∧ N ≤ timeout ∧ codes (N - 1) = sentinel ∧
        ∀ i, i < N - 1 → codes i ≠ sentinel) →
      checkPrintStatus sentinel codes timeout = (true, N))
    ∧ ((∀ i, i < timeout → codes i ≠ sentinel) →
      checkPrintStatus sentinel codes timeout = (false, timeout)) := by
  constructor
  · rintro ⟨h1, h2, h3, h4⟩
    have h := checkPrintStatusAux_found sentinel codes timeout 0 (N - 1) (by omega)
      (by simpa using h3) (fun j hj => by simpa using h4 j hj)
    rw [checkPrintStatus, h]
    congr 1
    omega
  · intro h
    have := checkPrintStatusAux_none sentinel codes timeout 0
      (fun j hj => by simpa using h j hj)
    simpa [checkPrintStatus] using this

theorem C3_checkPrintStatus_witness :
    (1 ≤ 3 ∧ 3 ≤ 30 ∧ (fun i => if i = 2 then 7 else 0) (3 - 1) = 7 ∧
      ∀ i, i < 3 - 1 → (fun i => if i = 2 then 7 else 0) i ≠ 7)
    ∧ checkPrintStatus 7 (fun i => if i = 2 then 7 else 0) 30 = (true, 3) := by
  refine ⟨⟨by decide, by decide, by decide, by decide⟩, ?_⟩
  exact (C3_checkPrintStatus 7 (fun i => if i = 2 then 7 else 0) 30 3).1
    ⟨by decide, by decide, by decide, by decide⟩

/-! ### Orchestration-level step lemmas -/

theorem rcallR_ok (pkts : Nat → DecodedPacket) (c : SPCall) (r : Run)
    (h : r.err = Option.none) :
    rcallR (allOk pkts) c r =
      ({ idx := r.idx + 1, trace := r.trace ++ [.call c], err := Option.none },
       some (pkts r.idx)) := by
  simp [rcallR, allOk, h]

theorem rcall_allOk (pkts : Nat → DecodedPacket) (c : SPCall) (r : Run)
    (h : r.err = Option.none) :
    rcall (allOk pkts) c r =
      { idx := r.idx + 1, trace := r.trace ++ [.call c], err := Option.none } := by
  rw [rcall, rcallR_ok pkts c r h]

theorem rreport_none (q : ℚ) (st : String) (r : Run) (h : r.err = Option.none) :
    rreport q st r =
      { idx := r.idx, trace := r.trace ++ [.report q 100 st], err := Option.none } := by
  simp [rreport, h]

theorem numSegs_pos_step (b : Nat) (hb : 0 < b) : numSegs b = numSegs (b - 960) + 1 := by
  unfold numSegs
  omega

theorem sendImageLoop_allOk (pkts : Nat → DecodedPacket) (img : List Nat) :
    ∀ b s g (r : Run), r.err = Option.none →
      sendImageLoop (allOk pkts) img b s g r =
        { idx := r.idx + numSegs b, trace := r.trace ++ segEvents img b s g,
          err := Option.none } := by
  intro b
  induction b using Nat.strong_induction_on with
  | _ b ih =>
    intro s g r hr
    by_cases hb : 0 < b
    · rw [sendImageLoop, dif_pos hb, segEvents, dif_pos hb]
      dsimp only
      rw [rcall_allOk pkts _ r hr, rreport_none _ _ _ rfl]
      rw [ih (b - 960) (by omega) (s + 960) (g + 1) _ rfl]
      rw [numSegs_pos_step b hb]
      simp [List.append_assoc]
      omega
    · rw [sendImageLoop, dif_neg hb, segEvents, dif_neg hb]
      have h0 : b = 0 := by omega
      rcases r with ⟨idx, trace, err⟩
      simp only at hr
      subst hr
      simp [h0, numSegs]

theorem rcheckStatus_allOk (sentinel : Nat) (pkts : Nat → DecodedPacket) :
    ∀ fuel (r : Run), r.err = Option.none →
      rcheckStatus sentinel (allOk pkts) fuel r =
        ({ idx := r.idx + (pollCount sentinel (codesOf pkts) fuel r.idx).1,
           trace := r.trace ++ pollTrace (pollCount sentinel (codesOf pkts) fuel r.idx).1,
           err := Option.none },
         (pollCount sentinel (codesOf pkts) fuel r.idx).2)
  | 0, r, hr => by
    rcases r with ⟨idx, trace, err⟩
    simp only at hr
    subst hr
    simp [rcheckStatus, pollCount, pollTrace]
  | fuel + 1, r, hr => by
    rw [rcheckStatus, rcallR_ok pkts _ r hr, pollCount]
    by_cases hrc : (pkts r.idx).returnCode = sentinel
    · have hc : codesOf pkts r.idx = sentinel := hrc
      simp only [hrc, if_true, hc, if_pos]
      simp [pollTrace]
    · have hc : ¬ codesOf pkts r.idx = sentinel := hrc
      simp only [hrc, if_false, hc, if_neg, not_false_iff]
      rw [rcheckStatus_allOk sentinel pkts fuel _ rfl]
      simp [pollTrace, List.replicate_succ, List.append_assoc]
      omega

theorem if_rreport (b : Bool) (s1 s2 : String) (r : Run) :
    (if b then rreport 100 s1 r else rreport 100 s2 r) =
      rreport 100 (if b then s1 else s2) r := by
  cases b <;> simp

theorem rfinishStatus_allOk (sentinel : Nat) (pkts : Nat → DecodedPacket) (r : Run)
    (hr : r.err = Option.none) :
    rfinishStatus sentinel (allOk pkts) r =
      { idx := r.idx + (pollCount sentinel (codesOf pkts) 30 r.idx).1,
        trace := r.trace ++ pollTrace (pollCount sentinel (codesOf pkts) 30 r.idx).1 ++
          [.report 100 100 (if (pollCount sentinel (codesOf pkts) 30 r.idx).2
            then stDone else stTimeout)],
        err := Option.none } := by
  rw [rfinishStatus, rcheckStatus_allOk sentinel pkts 30 r hr]
  dsimp only
  rw [if_rreport, rreport_none _ _ _ rfl]

theorem run0_err : run0.err = Option.none := rfl

/-- Full characterisation of a `printPhoto` run in which every session
call succeeds: no exception, and the event trace in closed form. -/
theorem printPhoto_allOk (sentinel : Nat) (pkts : Nat → DecodedPacket) (img : List Nat) :
    printPhoto sentinel (allOk pkts) img =
      { idx := 25 + numSegs img.length + (pollRes sentinel pkts img.length).1,
        trace := preSegTrace img.length ++ segEvents img img.length 0 0 ++ postSegTrace ++
          pollTrace (pollRes sentinel pkts img.length).1 ++
          finishTrace (pollRes sentinel pkts img.length).2,
        err := Option.none } := by
  rw [printPhoto, printPhotoOps]
  simp only [List.foldl_cons, List.foldl_nil]
  simp only [rcall_allOk, rreport_none, sendImageLoop_allOk, rfinishStatus_allOk, run0_err, run0]
  simp only [pollRes]
  ring_nf
  simp [preSegTrace, postSegTrace, pollTrace, finishTrace, List.append_assoc]

/-! ### Trace extraction lemmas -/

theorem reports_append : ∀ a b : List Event, reports (a ++ b) = reports a ++ reports b
  | [], _ => rfl
  | .call _ :: es, b => by rw [List.cons_append, reports, reports, reports_append es b]
  | .report _ _ _ :: es, b => by
    rw [List.cons_append, reports, reports, reports_append es b, List.cons_append]

theorem sentSegments_append (a b : List Event) :
    sentSegments (a ++ b) = sentSegments a ++ sentSegments b := by
  induction a with
  | nil => rfl
  | cons e es ih =>
    rcases e with c | ⟨q, t, s⟩
    · rcases c <;> simp [sentSegments, ih]
    · simp [sentSegments, ih]

theorem reports_pollTrace : ∀ p, reports (pollTrace p) = []
  | 0 => rfl
  | p + 1 => by
    rw [pollTrace, List.replicate_succ, reports]
    exact reports_pollTrace p

theorem sentSegments_pollTrace : ∀ p, sentSegments (pollTrace p) = []
  | 0 => rfl
  | p + 1 => by
    have h := sentSegments_pollTrace p
    rw [pollTrace] at h ⊢
    rw [List.replicate_succ]
    simpa [sentSegments] using h

/-- The `current` values a fully successful `printPhoto` run passes to
the progress callback: the five phase reports 0-40, one value per
segment, then 70, 90 and 100. -/
theorem currents_printPhoto (sentinel : Nat) (pkts : Nat → DecodedPacket) (img : List Nat) :
    currents (printPhoto sentinel (allOk pkts) img).trace =
      [0, 10, 20, 30, 40] ++ currents (segEvents img img.length 0 0) ++ [70, 90, 100] := by
  rw [printPhoto_allOk]
  simp [currents, reports_append, reports_pollTrace, preSegTrace, postSegTrace,
    finishTrace, reports, List.map_append]

theorem sentSegments_printPhoto (sentinel : Nat) (pkts : Nat → DecodedPacket)
    (img : List Nat) :
    sentSegments (printPhoto sentinel (allOk pkts) img).trace =
      sentSegments (segEvents img img.length 0 0) := by
  rw [printPhoto_allOk]
  simp [sentSegments_append, sentSegments_pollTrace, preSegTrace, postSegTrace,
    finishTrace, sentSegments]

theorem currents_cons_call (c : SPCall) (es : List Event) :
    currents (.call c :: es) = currents es := by
  simp [currents, reports]

theorem currents_cons_report (q : ℚ) (t : Nat) (st : String) (es : List Event) :
    currents (.report q t st :: es) = q :: currents es := by
  simp [currents, reports]

theorem sentSegments_cons_send (n : Nat) (p : List Nat) (es : List Event) :
    sentSegments (.call (.sendImage n p) :: es) = (n, p) :: sentSegments es := by
  simp [sentSegments]

theorem sentSegments_cons_report (q : ℚ) (t : Nat) (st : String) (es : List Event) :
    sentSegments (.report q t st :: es) = sentSegments es := by
  simp [sentSegments]

theorem segEvents_zero (img : List Nat) (s g : Nat) : segEvents img 0 s g = [] := by
  rw [segEvents, dif_neg (by omega)]

/-- The per-segment progress values: with `k` segments left and
`s = bytesSent` so far, the loop reports
`40 + 30 * (s + 960 * (i + 1)) / len` for `i = 0, 1, ...`. -/
theorem currents_segEvents (img : List Nat) :
    ∀ b s g, currents (segEvents img b s g) =
      (List.range (numSegs b)).map
        (fun i => 40 + 30 * ((s + 960 * (i + 1) : Nat) : ℚ) / (img.length : ℚ)) := by
  intro b
  induction b using Nat.strong_induction_on with
  | _ b ih =>
    intro s g
    by_cases hb : 0 < b
    · rw [segEvents, dif_pos hb]
      dsimp only
      rw [currents_cons_call, currents_cons_report,
        ih (b - 960) (by omega) (s + 960) (g + 1),
        numSegs_pos_step b hb, List.range_succ_eq_map]
      simp only [List.map_cons, List.map_map]
      refine List.cons_eq_cons.mpr ⟨by norm_num, ?_⟩
      refine List.map_congr_left ?_
      intro i _
      simp only [Function.comp_apply, Nat.succ_eq_add_one]
      rw [show s + 960 + 960 * (i + 1) = s + 960 * (i + 1 + 1) from by ring]
    · have h0 : b = 0 := by omega
      subst h0
      rw [segEvents_zero]
      simp [currents, reports, numSegs]

theorem sentSegments_segEvents_length (img : List Nat) :
    ∀ b s g, (sentSegments (segEvents img b s g)).length = numSegs b := by
  intro b
  induction b using Nat.strong_induction_on with
  | _ b ih =>
    intro s g
    by_cases hb : 0 < b
    · rw [segEvents, dif_pos hb]
      dsimp only
      rw [sentSegments_cons_send, sentSegments_cons_report]
      simp only [List.length_cons, ih (b - 960) (by omega) (s + 960) (g + 1)]
      rw [numSegs_pos_step b hb]
    · have h0 : b = 0 := by omega
      subst h0
      rw [segEvents_zero]
      simp [sentSegments, numSegs]

theorem sentSegments_segEvents_fst (img : List Nat) :
    ∀ b s g, (sentSegments (segEvents img b s g)).map Prod.fst =
      List.range' g (numSegs b) := by
  intro b
  induction b using Nat.strong_induction_on with
  | _ b ih =>
    intro s g
    by_cases hb : 0 < b
    · rw [segEvents, dif_pos hb]
      dsimp only
      rw [sentSegments_cons_send, sentSegments_cons_report]
      simp only [List.map_cons, ih (b - 960) (by omega) (s + 960) (g + 1)]
      rw [numSegs_pos_step b hb, List.range'_succ]
    · have h0 : b = 0 := by omega
      subst h0
      rw [segEvents_zero]
      simp [sentSegments, numSegs]

theorem sentSegments_segEvents_len960 (img : List Nat) :
    ∀ b s g, b + s = img.length →
      ∀ p ∈ sentSegments (segEvents img b s g), p.2.length = 960 := by
  intro b
  induction b using Nat.strong_induction_on with
  | _ b ih =>
    intro s g hbs p hp
    by_cases hb : 0 < b
    · rw [segEvents, dif_pos hb] at hp
      dsimp only at hp
      rw [sentSegments_cons_send, sentSegments_cons_report] at hp
      rcases List.mem_cons.mp hp with h | h
      · subst h
        by_cases h960 : 960 ≤ b
        · simp only [if_pos h960]
          simp [List.length_take, List.length_drop]
          omega
        · simp only [if_neg h960]
          simp [List.length_take, List.length_drop, List.length_replicate]
          omega
      · by_cases h960 : 960 ≤ b
        · exact ih (b - 960) (by omega) (s + 960) (g + 1) (by omega) p h
        · rw [show b - 960 = 0 from by omega, segEvents_zero] at h
          simp [sentSegments] at h
    · have h0 : b = 0 := by omega
      subst h0
      rw [segEvents_zero] at hp
      simp [sentSegments] at hp

theorem sentSegments_segEvents_get (img : List Nat) :
    ∀ b s g i, i + 1 < numSegs b →
      (sentSegments (segEvents img b s g))[i]? =
        some (g + i, (img.drop (s + 960 * i)).take 960) := by
  intro b
  induction b using Nat.strong_induction_on with
  | _ b ih =>
    intro s g i hi
    have hb : 0 < b := by
      by_contra h
      have h0 : b = 0 := by omega
      subst h0
      simp [numSegs] at hi
    have hb961 : 961 ≤ b := by
      have : 2 ≤ numSegs b := by omega
      unfold numSegs at this
      omega
    rw [segEvents, dif_pos hb]
    dsimp only
    rw [sentSegments_cons_send, sentSegments_cons_report]
    match i with
    | 0 =>
      rw [List.getElem?_cons_zero, if_pos (by omega)]
      norm_num
    | i + 1 =>
      rw [List.getElem?_cons_succ,
        ih (b - 960) (by omega) (s + 960) (g + 1) i
          (by have := numSegs_pos_step b hb; omega)]
      rw [show g + 1 + i = g + (i + 1) from by omega,
        show s + 960 + 960 * i = s + 960 * (i + 1) from by omega]

theorem sentSegments_segEvents_getLast (img : List Nat) :
    ∀ b s g, 0 < b → b + s = img.length →
      (sentSegments (segEvents img b s g))[numSegs b - 1]? =
        some (g + (numSegs b - 1),
          (img.drop (s + 960 * (numSegs b - 1))).take 960 ++
            List.replicate (960 * numSegs b - b) 0) := by
  intro b
  induction b using Nat.strong_induction_on with
  | _ b ih =>
    intro s g hb hbs
    rw [segEvents, dif_pos hb]
    dsimp only
    rw [sentSegments_cons_send, sentSegments_cons_report]
    by_cases hb960 : 960 < b
    · have hstep := numSegs_pos_step b hb
      have hk : 0 < numSegs (b - 960) := by
        unfold numSegs
        omega
      rw [show numSegs b - 1 = (numSegs (b - 960) - 1) + 1 from by omega,
        List.getElem?_cons_succ,
        ih (b - 960) (by omega) (s + 960) (g + 1) (by omega) (by omega)]
      congr 2
      · omega
      · congr 2
        · congr 1
          omega
        · omega
    · have hk1 : numSegs b = 1 := by
        unfold numSegs
        omega
      rw [hk1]
      rw [List.getElem?_cons_zero]
      have hlen : (img.drop s).length = b := by
        simp [List.length_drop]
        omega
      simp only [Nat.sub_self, Nat.mul_zero, Nat.add_zero, Nat.mul_one]
      by_cases h960 : 960 ≤ b
      · have hbeq : b = 960 := by omega
        rw [if_pos h960, hbeq]
        simp
      · rw [if_neg h960]
        have h1 : (img.drop s).take 960 = img.drop s :=
          List.take_of_length_le (by omega)
        have h2 : (img.drop s).take b = img.drop s :=
          List.take_of_length_le (by omega)
        rw [h1, h2]

theorem sentSegments_segEvents_join (img : List Nat) :
    ∀ b s g, b + s = img.length →
      (((sentSegments (segEvents img b s g)).map Prod.snd).join).take b =
        (img.drop s).take b := by
  intro b
  induction b using Nat.strong_induction_on with
  | _ b ih =>
    intro s g hbs
    by_cases hb : 0 < b
    · rw [segEvents, dif_pos hb]
      dsimp only
      rw [sentSegments_cons_send, sentSegments_cons_report]
      by_cases h960 : 960 ≤ b
      · rw [if_pos h960]
        simp only [List.map_cons, List.join_cons]
        rw [List.take_append_eq_append_take]
        have hlenseg : ((img.drop s).take 960).length = 960 := by
          simp [List.length_take, List.length_drop]
          omega
        rw [hlenseg, List.take_of_length_le (le_of_eq_of_le hlenseg (by omega)),
          ih (b - 960) (by omega) (s + 960) (g + 1) (by omega)]
        have hsplit : (img.drop s).take b =
            (img.drop s).take 960 ++ ((img.drop s).drop 960).take (b - 960) := by
          rw [← List.take_add]
          congr 1
          omega
        rw [hsplit]
        congr 1
        rw [List.drop_drop]
      · rw [if_neg h960]
        rw [show b - 960 = 0 from by omega, segEvents_zero]
        simp only [sentSegments, List.map_cons, List.map_nil, List.join_cons,
          List.join_nil, List.append_nil]
        have hlen : ((img.drop s).take b).length = b := by
          simp [List.length_take, List.length_drop]
          omega
        rw [List.take_append_eq_append_take, hlen,
          List.take_of_length_le (le_of_eq_of_le hlen (by omega))]
        simp
    · have h0 : b = 0 := by omega
      subst h0
      simp

/-! ### The `Preserves` invariants -/

theorem Preserves.comp {o : Oracle} {f g : Run → Run}
    (hf : Preserves o f) (hg : Preserves o g) : Preserves o (fun r => g (f r)) where
  skip r hr := by rw [hf.skip r hr, hg.skip r hr]
  mono r := le_trans (hf.mono r) (hg.mono (f r))
  back r h := hf.back r (hg.back (f r) h)
  okCalls r hr h n hn1 hn2 := by
    have hfr : (f r).err = Option.none := hg.back (f r) h
    by_cases hn : n < (f r).idx
    · exact hf.okCalls r hr hfr n hn1 hn
    · exact hg.okCalls (f r) hfr h n (by omega) hn2
  firstErr r e hr h := by
    cases hfr : (f r).err with
    | some e2 =>
      have hskip : g (f r) = f r := hg.skip (f r) (by simp [hfr])
      rw [hskip, hfr] at h
      obtain rfl : e2 = e := Option.some.inj h
      obtain ⟨n, h1, h2, h3, h4⟩ := hf.firstErr r e2 hr hfr
      exact ⟨n, h1, by rw [hskip]; omega, h3, h4⟩
    | none =>
      obtain ⟨n, h1, h2, h3, h4⟩ := hg.firstErr (f r) e hfr h
      refine ⟨n, le_trans (hf.mono r) h1, h2, h3, fun m hm1 hm2 => ?_⟩
      by_cases hmf : m < (f r).idx
      · exact hf.okCalls r hr hfr m hm1 hmf
      · exact h4 m (by omega) hm2
  totals r h := hg.totals (f r) (hf.totals r h)

theorem preserves_id (o : Oracle) : Preserves o (fun r => r) where
  skip _ _ := rfl
  mono _ := le_refl _
  back _ h := h
  okCalls _ _ _ n hn1 hn2 := absurd hn2 (by omega)
  firstErr r e h1 h2 := by rw [h1] at h2; cases h2
  totals _ h := h

theorem preserves_foldl (o : Oracle) :
    ∀ ops : List (Run → Run), (∀ f ∈ ops, Preserves o f) →
      Preserves o (fun r => ops.foldl (fun r f => f r) r)
  | [], _ => preserves_id o
  | f :: fs, h => by
    have hf := h f (List.mem_cons_self _ _)
    have hfs := preserves_foldl o fs (fun g hg => h g (List.mem_cons_of_mem _ hg))
    exact Preserves.comp hf hfs

/-- The three possible outcomes of `rcall`. -/
theorem rcall_cases (o : Oracle) (c : SPCall) (r : Run) :
    (r.err.isSome = true ∧ rcall o c r = r) ∨
    (r.err = Option.none ∧ ∃ p, o r.idx = .ok p ∧
      rcall o c r = { r with idx := r.idx + 1, trace := r.trace ++ [.call c] }) ∨
    (r.err = Option.none ∧ ∃ e, o r.idx = .err e ∧
      rcall o c r =
        { r with idx := r.idx + 1, trace := r.trace ++ [.call c], err := some e }) := by
  by_cases hr : r.err.isSome
  · exact Or.inl ⟨hr, by simp [rcall, rcallR, hr]⟩
  · have hr2 : r.err = Option.none := Option.not_isSome_iff_eq_none.mp hr
    cases ho : o r.idx with
    | ok p => exact Or.inr (Or.inl ⟨hr2, p, rfl, by simp [rcall, rcallR, hr2, ho]⟩)
    | err e => exact Or.inr (Or.inr ⟨hr2, e, rfl, by simp [rcall, rcallR, hr2, ho]⟩)

theorem reports_call_nil (c : SPCall) : reports [Event.call c] = [] := rfl

theorem preserves_rcall (o : Oracle) (c : SPCall) : Preserves o (rcall o c) where
  skip r hr := by simp [rcall, rcallR, hr]
  mono r := by
    rcases rcall_cases o c r with ⟨_, h⟩ | ⟨_, p, _, h⟩ | ⟨_, e, _, h⟩ <;>
      rw [h] <;> dsimp only <;> omega
  back r h := by
    rcases rcall_cases o c r with ⟨_, heq⟩ | ⟨hr, p, _, heq⟩ | ⟨hr, e, _, heq⟩
    · rwa [heq] at h
    · exact hr
    · rw [heq] at h
      dsimp only at h
      cases h
  okCalls r hr h n hn1 hn2 := by
    rcases rcall_cases o c r with ⟨hs, heq⟩ | ⟨_, p, ho, heq⟩ | ⟨_, e, ho, heq⟩
    · simp [hr] at hs
    · rw [heq] at hn2
      dsimp only at hn2
      have : n = r.idx := by omega
      exact ⟨p, this ▸ ho⟩
    · rw [heq] at h
      dsimp only at h
      cases h
  firstErr r e hr h := by
    rcases rcall_cases o c r with ⟨hs, heq⟩ | ⟨_, p, ho, heq⟩ | ⟨_, e2, ho, heq⟩
    · simp [hr] at hs
    · rw [heq] at h
      dsimp only at h
      rw [hr] at h
      cases h
    · rw [heq] at h
      dsimp only at h
      obtain rfl : e2 = e := Option.some.inj h
      refine ⟨r.idx, le_refl _, ?_, ho, fun m hm1 hm2 => absurd hm2 (by omega)⟩
      rw [heq]
      dsimp only
      omega
  totals r htot := by
    rcases rcall_cases o c r with ⟨_, heq⟩ | ⟨_, p, _, heq⟩ | ⟨_, e, _, heq⟩ <;> rw [heq]
    · exact htot
    · intro q hq
      dsimp only at hq
      rw [reports_append, reports_call_nil, List.append_nil] at hq
      exact htot q hq
    · intro q hq
      dsimp only at hq
      rw [reports_append, reports_call_nil, List.append_nil] at hq
      exact htot q hq

theorem rreport_eq (q : ℚ) (st : String) (r : Run) :
    rreport q st r = r ∨
      (r.err = Option.none ∧
        rreport q st r = { r with trace := r.trace ++ [.report q 100 st] }) := by
  cases hr : r.err with
  | some e0 => exact Or.inl (by simp [rreport, hr])
  | none => exact Or.inr ⟨rfl, by simp [rreport, hr]⟩

theorem rreport_err_eq (q : ℚ) (st : String) (r : Run) : (rreport q st r).err = r.err := by
  rcases rreport_eq q st r with h | ⟨_, h⟩ <;> rw [h]

theorem rreport_idx_eq (q : ℚ) (st : String) (r : Run) : (rreport q st r).idx = r.idx := by
  rcases rreport_eq q st r with h | ⟨_, h⟩ <;> rw [h]

theorem rreport_totals (q : ℚ) (st : String) (r : Run)
    (h : ∀ p ∈ reports r.trace, p.2.1 = 100) :
    ∀ p ∈ reports (rreport q st r).trace, p.2.1 = 100 := by
  rcases rreport_eq q st r with heq | ⟨_, heq⟩ <;> rw [heq]
  · exact h
  · intro p hp
    simp only [reports_append] at hp
    rcases List.mem_append.mp hp with hp | hp
    · exact h p hp
    · simp [reports] at hp
      rw [hp]

theorem preserves_rreport (o : Oracle) (q : ℚ) (st : String) :
    Preserves o (rreport q st) where
  skip r hr := by simp [rreport, hr]
  mono r := by rw [rreport_idx_eq]
  back r h := by rwa [rreport_err_eq] at h
  okCalls r hr h n hn1 hn2 := by
    rw [rreport_idx_eq] at hn2
    omega
  firstErr r e hr h := by
    rw [rreport_err_eq, hr] at h
    cases h
  totals r h := rreport_totals q st r h

theorem preserves_sendImageLoop (o : Oracle) (img : List Nat) :
    ∀ b s g, Preserves o (sendImageLoop o img b s g) := by
  intro b
  induction b using Nat.strong_induction_on with
  | _ b ih =>
    intro s g
    by_cases hb : 0 < b
    · have heq : sendImageLoop o img b s g = fun r =>
          sendImageLoop o img (b - 960) (s + 960) (g + 1)
            (rreport (40 + 30 * ((s + 960 : Nat) : ℚ) / (img.length : ℚ))
              (segStatus (g + 1))
              (rcall o
                (.sendImage g
                  (if 960 ≤ b then (img.drop s).take 960
                   else (img.drop s).take b ++ List.replicate (960 - b) 0)) r)) := by
        funext r
        rw [sendImageLoop, dif_pos hb]
      rw [heq]
      exact Preserves.comp (Preserves.comp (preserves_rcall o _) (preserves_rreport o _ _))
        (ih (b - 960) (by omega) (s + 960) (g + 1))
    · have heq : sendImageLoop o img b s g = fun r => r := by
        funext r
        rw [sendImageLoop, dif_neg hb]
      rw [heq]
      exact preserves_id o

theorem rcheckStatus_skip (sentinel : Nat) (o : Oracle) :
    ∀ fuel (r : Run), r.err.isSome → rcheckStatus sentinel o fuel r = (r, false)
  | 0, r, _ => rfl
  | fuel + 1, r, hr => by
    rw [rcheckStatus]
    simp [rcallR, hr]

theorem rcheckStatus_step_ok (sentinel : Nat) (o : Oracle) (fuel : Nat) (r : Run)
    (p : DecodedPacket) (hr : r.err = Option.none) (hp : o r.idx = .ok p) :
    rcheckStatus sentinel o (fuel + 1) r =
      if p.returnCode = sentinel
      then ({ r with idx := r.idx + 1, trace := r.trace ++ [.call .t195] }, true)
      else rcheckStatus sentinel o fuel
        { r with idx := r.idx + 1, trace := r.trace ++ [.call .t195] } := by
  rw [rcheckStatus]
  simp [rcallR, hr, hp]

theorem rcheckStatus_step_err (sentinel : Nat) (o : Oracle) (fuel : Nat) (r : Run)
    (e : SPError) (hr : r.err = Option.none) (he : o r.idx = .err e) :
    rcheckStatus sentinel o (fuel + 1) r =
      ({ r with idx := r.idx + 1, trace := r.trace ++ [.call .t195], err := some e },
       false) := by
  rw [rcheckStatus]
  simp [rcallR, hr, he]

theorem preserves_rcheckFst (sentinel : Nat) (o : Oracle) :
    ∀ fuel, Preserves o (fun r => (rcheckStatus sentinel o fuel r).1)
  | 0 => preserves_id o
  | fuel + 1 => by
    have ih := preserves_rcheckFst sentinel o fuel
    constructor
    · intro r hr
      rw [rcheckStatus_skip sentinel o (fuel + 1) r hr]
    · intro r
      by_cases hre : r.err.isSome
      · rw [rcheckStatus_skip sentinel o (fuel + 1) r hre]
      · have hre2 : r.err = Option.none := Option.not_isSome_iff_eq_none.mp hre
        cases ho : o r.idx with
        | ok p =>
          rw [rcheckStatus_step_ok sentinel o fuel r p hre2 ho]
          by_cases hc : p.returnCode = sentinel
          · rw [if_pos hc]
            dsimp only
            omega
          · rw [if_neg hc]
            have := ih.mono { r with idx := r.idx + 1, trace := r.trace ++ [.call .t195] }
            dsimp only at this
            omega
        | err e =>
          rw [rcheckStatus_step_err sentinel o fuel r e hre2 ho]
          dsimp only
          omega
    · intro r h
      by_cases hre : r.err.isSome
      · rw [rcheckStatus_skip sentinel o (fuel + 1) r hre] at h
        exact h
      · exact Option.not_isSome_iff_eq_none.mp hre
    · intro r hr h n hn1 hn2
      cases ho : o r.idx with
      | ok p =>
        rw [rcheckStatus_step_ok sentinel o fuel r p hr ho] at h hn2
        by_cases hc : p.returnCode = sentinel
        · rw [if_pos hc] at hn2
          dsimp only at hn2
          have : n = r.idx := by omega
          exact ⟨p, this ▸ ho⟩
        · rw [if_neg hc] at h hn2
          by_cases hn : n = r.idx
          · exact ⟨p, hn ▸ ho⟩
          · exact ih.okCalls { r with idx := r.idx + 1, trace := r.trace ++ [.call .t195] }
              hr h n (by dsimp only; omega) hn2
      | err e =>
        rw [rcheckStatus_step_err sentinel o fuel r e hr ho] at h
        dsimp only at h
        cases h
    · intro r e hr h
      cases ho : o r.idx with
      | ok p =>
        rw [rcheckStatus_step_ok sentinel o fuel r p hr ho] at h ⊢
        by_cases hc : p.returnCode = sentinel
        · rw [if_pos hc] at h
          dsimp only at h
          rw [hr] at h
          cases h
        · rw [if_neg hc] at h ⊢
          obtain ⟨n, h1, h2, h3, h4⟩ := ih.firstErr
            { r with idx := r.idx + 1, trace := r.trace ++ [.call .t195] } e hr h
          dsimp only at h1 h2 h4
          refine ⟨n, by omega, h2, h3, fun m hm1 hm2 => ?_⟩
          by_cases hm : m = r.idx
          · exact ⟨p, hm ▸ ho⟩
          · exact h4 m (by omega) hm2
      | err e2 =>
        rw [rcheckStatus_step_err sentinel o fuel r e2 hr ho] at h ⊢
        dsimp only at h ⊢
        obtain rfl : e2 = e := Option.some.inj h
        exact ⟨r.idx, le_refl _, by omega, ho, fun m hm1 hm2 => absurd hm2 (by omega)⟩
    · intro r htot
      by_cases hre : r.err.isSome
      · rw [rcheckStatus_skip sentinel o (fuel + 1) r hre]
        exact htot
      · have hre2 : r.err = Option.none := Option.not_isSome_iff_eq_none.mp hre
        have htot2 : ∀ q ∈ reports (r.trace ++ [Event.call .t195]), q.2.1 = 100 := by
          intro q hq
          rw [reports_append, reports_call_nil, List.append_nil] at hq
          exact htot q hq
        cases ho : o r.idx with
        | ok p =>
          rw [rcheckStatus_step_ok sentinel o fuel r p hre2 ho]
          by_cases hc : p.returnCode = sentinel
          · rw [if_pos hc]
            exact htot2
          · rw [if_neg hc]
            exact ih.totals { r with idx := r.idx + 1, trace := r.trace ++ [.call .t195] }
              htot2
        | err e =>
          rw [rcheckStatus_step_err sentinel o fuel r e hre2 ho]
          exact htot2

theorem rfinishStatus_eq (sentinel : Nat) (o : Oracle) (r : Run) :
    rfinishStatus sentinel o r =
      rreport 100 (if (rcheckStatus sentinel o 30 r).2 then stDone else stTimeout)
        ((rcheckStatus sentinel o 30 r).1) := by
  rw [rfinishStatus]
  exact if_rreport _ _ _ _

theorem preserves_rfinishStatus (sentinel : Nat) (o : Oracle) :
    Preserves o (rfinishStatus sentinel o) := by
  have h1 := preserves_rcheckFst sentinel o 30
  constructor
  · intro r hr
    rw [rfinishStatus_eq, rcheckStatus_skip sentinel o 30 r hr]
    simp [rreport, hr]
  · intro r
    rw [rfinishStatus_eq, rreport_idx_eq]
    exact h1.mono r
  · intro r h
    rw [rfinishStatus_eq, rreport_err_eq] at h
    exact h1.back r h
  · intro r hr h n hn1 hn2
    rw [rfinishStatus_eq, rreport_err_eq] at h
    rw [rfinishStatus_eq, rreport_idx_eq] at hn2
    exact h1.okCalls r hr h n hn1 hn2
  · intro r e hr h
    rw [rfinishStatus_eq, rreport_err_eq] at h
    obtain ⟨n, ha, hb, hc, hd⟩ := h1.firstErr r e hr h
    refine ⟨n, ha, ?_, hc, hd⟩
    rw [rfinishStatus_eq, rreport_idx_eq]
    exact hb
  · intro r htot
    rw [rfinishStatus_eq]
    exact rreport_totals _ _ _ (h1.totals r htot)

theorem preserves_printPhotoFold (sentinel : Nat) (o : Oracle) (img : List Nat) :
    Preserves o (fun r => (printPhotoOps sentinel o img).foldl (fun r f => f r) r) := by
  apply preserves_foldl
  intro f hf
  simp only [printPhotoOps, List.mem_cons, List.not_mem_nil, or_false] at hf
  rcases hf with rfl | rfl | rfl | rfl | rfl | rfl | rfl | rfl | rfl | rfl | rfl | rfl |
    rfl | rfl | rfl | rfl | rfl | rfl | rfl | rfl | rfl | rfl | rfl | rfl | rfl | rfl |
    rfl | rfl | rfl | rfl | rfl | rfl | rfl | rfl
  all_goals first
    | exact preserves_rcall o _
    | exact preserves_rreport o _ _
    | exact preserves_sendImageLoop o img img.length 0 0
    | exact preserves_rfinishStatus sentinel o

/-! ### C1 - image segmentation -/

/-- C1: for every image, a fully successful `printPhoto` run sends
`ceil(L/960)` SendImage segments; their sequence numbers are exactly
`0, 1, 2, ...` with no gaps; every segment payload is exactly 960 bytes;
every segment except the last is the next 960 bytes of the image; the
last is the remaining bytes zero-padded to 960; and concatenating all
payloads and trimming to `L` reproduces the image exactly. -/
theorem C1_segmentation (sentinel : Nat) (pkts : Nat → DecodedPacket) (img : List Nat) :
    (sentSegments (printPhoto sentinel (allOk pkts) img).trace).length = numSegs img.length
    ∧ (sentSegments (printPhoto sentinel (allOk pkts) img).trace).map Prod.fst =
        List.range (numSegs img.length)
    ∧ (∀ p ∈ sentSegments (printPhoto sentinel (allOk pkts) img).trace, p.2.length = 960)
    ∧ (∀ i, i + 1 < numSegs img.length →
        (sentSegments (printPhoto sentinel (allOk pkts) img).trace)[i]? =
          some (i, (img.drop (960 * i)).take 960))
    ∧ (0 < img.length →
        (sentSegments (printPhoto sentinel (allOk pkts) img).trace)[
            numSegs img.length - 1]? =
          some (numSegs img.length - 1,
            (img.drop (960 * (numSegs img.length - 1))).take 960 ++
              List.replicate (960 * numSegs img.length - img.length) 0))
    ∧ ((sentSegments (printPhoto sentinel (allOk pkts) img).trace).map Prod.snd).join.take
        img.length = img := by
  rw [sentSegments_printPhoto]
  refine ⟨sentSegments_segEvents_length img img.length 0 0, ?_, ?_, ?_, ?_, ?_⟩
  · rw [sentSegments_segEvents_fst img img.length 0 0, ← List.range_eq_range']
  · intro p hp
    exact sentSegments_segEvents_len960 img img.length 0 0 (by omega) p hp
  · intro i hi
    have h := sentSegments_segEvents_get img img.length 0 0 i hi
    simpa using h
  · intro hL
    have h := sentSegments_segEvents_getLast img img.length 0 0 hL (by omega)
    simpa using h
  · have h := sentSegments_segEvents_join img img.length 0 0 (by omega)
    rw [h, List.drop_zero, List.take_length]

theorem C1_segmentation_witness :
    0 < ([5, 6, 7] : List Nat).length
    ∧ (sentSegments (printPhoto 0 (allOk (fun _ => defaultPacket)) [5, 6, 7]).trace)[
        numSegs ([5, 6, 7] : List Nat).length - 1]? =
      some (numSegs ([5, 6, 7] : List Nat).length - 1,
        (([5, 6, 7] : List Nat).drop (960 * (numSegs ([5, 6, 7] : List Nat).length - 1))).take
            960 ++
          List.replicate (960 * numSegs ([5, 6, 7] : List Nat).length -
            ([5, 6, 7] : List Nat).length) 0) :=
  ⟨by decide,
   (C1_segmentation 0 (fun _ => defaultPacket) [5, 6, 7]).2.2.2.2.1 (by decide)⟩

/-! ### C2 - progress monotonicity -/

/-- The per-segment progress value is at least 40, and at most 70 when
the image length is a whole number of segments. -/
theorem seg_val_bounds (L m i : Nat) (hLm : L = 960 * m) (hi : i < m) :
    (40 : ℚ) ≤ 40 + 30 * ((0 + 960 * (i + 1) : Nat) : ℚ) / (L : ℚ)
    ∧ 40 + 30 * ((0 + 960 * (i + 1) : Nat) : ℚ) / (L : ℚ) ≤ 70 := by
  subst hLm
  have hL0 : (0 : ℚ) < ((960 * m : Nat) : ℚ) := by
    exact_mod_cast Nat.pos_of_ne_zero (by omega)
  constructor
  · have h0 : (0 : ℚ) ≤ 30 * ((0 + 960 * (i + 1) : Nat) : ℚ) / ((960 * m : Nat) : ℚ) := by
      positivity
    linarith
  · have hkey : (30 : ℚ) * ((0 + 960 * (i + 1) : Nat) : ℚ) ≤
        30 * ((960 * m : Nat) : ℚ) := by
      have hc : ((0 + 960 * (i + 1) : Nat) : ℚ) ≤ ((960 * m : Nat) : ℚ) := by
        exact_mod_cast (by omega : 0 + 960 * (i + 1) ≤ 960 * m)
      linarith
    have h2 : 30 * ((0 + 960 * (i + 1) : Nat) : ℚ) / ((960 * m : Nat) : ℚ) ≤ 30 := by
      rw [div_le_iff₀ hL0]
      exact hkey
    linarith

/-- Successive per-segment progress values are non-decreasing. -/
theorem seg_val_mono (L i : Nat) :
    40 + 30 * ((0 + 960 * (i + 1) : Nat) : ℚ) / (L : ℚ) ≤
      40 + 30 * ((0 + 960 * (i + 1 + 1) : Nat) : ℚ) / (L : ℚ) := by
  rcases Nat.eq_zero_or_pos L with hL | hL
  · subst hL
    simp
  · have hL0 : (0 : ℚ) < (L : ℚ) := by exact_mod_cast hL
    have hkey : (30 : ℚ) * ((0 + 960 * (i + 1) : Nat) : ℚ) ≤
        30 * ((0 + 960 * (i + 1 + 1) : Nat) : ℚ) := by
      have hc : ((0 + 960 * (i + 1) : Nat) : ℚ) ≤ ((0 + 960 * (i + 1 + 1) : Nat) : ℚ) := by
        exact_mod_cast (by omega : 0 + 960 * (i + 1) ≤ 0 + 960 * (i + 1 + 1))
      linarith
    have h2 := (div_le_div_right hL0).mpr hkey
    linarith

/-- C2 counterexample: for the 1-byte image the single per-segment report
is `40 + 30 * 960 / 1 = 28840`, after which the fixed 70 report follows -
the `current` sequence overshoots 70 during the transfer phase and then
decreases, so it is not monotone and not confined to the 40-70
interpolation band. -/
theorem C2_progress_cex :
    currents (printPhoto 0 (allOk (fun _ => defaultPacket)) [0]).trace =
      [0, 10, 20, 30, 40, 28840, 70, 90, 100]
    ∧ ¬ List.Chain' (· ≤ ·)
        (currents (printPhoto 0 (allOk (fun _ => defaultPacket)) [0]).trace) := by
  have h := currents_printPhoto 0 (fun _ => defaultPacket) [0]
  rw [currents_segEvents] at h
  norm_num [numSegs, List.range_succ] at h
  exact ⟨h, by rw [h]; norm_num [List.chain'_cons]⟩

/-- C2 amended: when the image length is a multiple of 960 (as every
real instax bitstream is), the `current` values of a fully successful
`printPhoto` run are monotonically non-decreasing, start at 0, end at
100, and every per-segment report lies in the interval [40, 70]; for
lengths that are not a multiple of 960 the final per-segment report
exceeds 70 and the sequence then decreases (see the counterexample). -/
theorem C2_progress_monotone (sentinel : Nat) (pkts : Nat → DecodedPacket)
    (img : List Nat) (hmod : img.length % 960 = 0) :
    List.Chain' (· ≤ ·) (currents (printPhoto sentinel (allOk pkts) img).trace)
    ∧ (currents (printPhoto sentinel (allOk pkts) img).trace).head? = some 0
    ∧ (currents (printPhoto sentinel (allOk pkts) img).trace).getLast? = some 100
    ∧ ∀ q ∈ currents (segEvents img img.length 0 0), 40 ≤ q ∧ q ≤ 70 := by
  obtain ⟨m, hm⟩ : ∃ m, img.length = 960 * m := ⟨img.length / 960, by omega⟩
  have hnum : numSegs img.length = m := by unfold numSegs; omega
  have hseg : currents (segEvents img img.length 0 0) =
      (List.range m).map
        (fun i => 40 + 30 * ((0 + 960 * (i + 1) : Nat) : ℚ) / (img.length : ℚ)) := by
    rw [currents_segEvents, hnum]
  have hcur : currents (printPhoto sentinel (allOk pkts) img).trace =
      [0, 10, 20, 30, 40] ++
        (List.range m).map
          (fun i => 40 + 30 * ((0 + 960 * (i + 1) : Nat) : ℚ) / (img.length : ℚ)) ++
        [70, 90, 100] := by
    rw [currents_printPhoto, hseg]
  rw [hcur, hseg]
  refine ⟨?_, ?_, ?_, ?_⟩
  · rcases Nat.eq_zero_or_pos m with hm0 | hm0
    · subst hm0
      simp only [List.range_zero, List.map_nil, List.append_nil]
      norm_num [List.chain'_cons]
    · obtain ⟨n, rfl⟩ : ∃ n, m = n + 1 := ⟨m - 1, by omega⟩
      refine List.Chain'.append (List.Chain'.append ?_ ?_ ?_) ?_ ?_
      · norm_num [List.chain'_cons]
      · rw [List.chain'_map, List.chain'_range_succ]
        intro j _
        exact seg_val_mono img.length j
      · intro x hx y hy
        simp only [List.getLast?_cons_cons, List.getLast?_singleton, Option.mem_def,
          Option.some.injEq] at hx
        rw [List.head?_map, List.range_succ_eq_map] at hy
        simp only [List.head?_cons, Option.map_some', Option.mem_def,
          Option.some.injEq] at hy
        rw [← hx, ← hy]
        exact (seg_val_bounds img.length (n + 1) 0 hm (by omega)).1
      · norm_num [List.chain'_cons]
      · intro x hx y hy
        rw [List.getLast?_append_of_ne_nil _ (by simp)] at hx
        rw [List.range_succ, List.map_append] at hx
        rw [List.getLast?_append_of_ne_nil _ (by simp)] at hx
        simp only [List.map_cons, List.map_nil, List.getLast?_singleton, Option.mem_def,
          Option.some.injEq] at hx
        simp only [List.head?_cons, Option.mem_def, Option.some.injEq] at hy
        rw [← hx, ← hy]
        exact (seg_val_bounds img.length (n + 1) n hm (by omega)).2
  · rfl
  · rw [List.getLast?_append_of_ne_nil _ (by simp)]
    rfl
  · intro q hq
    obtain ⟨i, hi, rfl⟩ := List.mem_map.mp hq
    exact seg_val_bounds img.length m i hm (List.mem_range.mp hi)

theorem C2_progress_monotone_witness :
    ([] : List Nat).length % 960 = 0
    ∧ List.Chain' (· ≤ ·)
        (currents (printPhoto 0 (allOk (fun _ => defaultPacket)) []).trace) :=
  ⟨by decide, (C2_progress_monotone 0 (fun _ => defaultPacket) [] (by decide)).1⟩

/-! ### C6 - poll exhaustion is absorbed, everything else propagates -/

theorem pollCount_never (sentinel : Nat) (codes : Nat → Nat)
    (h : ∀ i, codes i ≠ sentinel) :
    ∀ fuel i, pollCount sentinel codes fuel i = (fuel, false)
  | 0, i => rfl
  | fuel + 1, i => by
    rw [pollCount]
    rw [if_neg (h i)]
    rw [pollCount_never sentinel codes h fuel (i + 1)]

/-- C6: when every session call succeeds but no Type195 reply ever
carries the sentinel, `printPhoto` does not raise - its final
progress-callback invocation is `(100, 100, stTimeout)` (the "timed out
waiting for print" text); and this is the only failure absorbed
internally: whenever `printPhoto` ends with an exception, that exception
is exactly the one raised by the first failing session call, with every
earlier call having succeeded. -/
theorem C6_poll_exhaustion (sentinel : Nat) (pkts : Nat → DecodedPacket)
    (img : List Nat) (hns : ∀ i, (pkts i).returnCode ≠ sentinel) :
    ((printPhoto sentinel (allOk pkts) img).err = Option.none
      ∧ (reports (printPhoto sentinel (allOk pkts) img).trace).getLast? =
          some (100, 100, stTimeout))
    ∧ ∀ (o : Oracle) (e : SPError), (printPhoto sentinel o img).err = some e →
        ∃ n, o n = .err e ∧ ∀ m, m < n → ∃ p, o m = .ok p := by
  have hfound : pollRes sentinel pkts img.length = (30, false) := by
    rw [pollRes, pollCount_never sentinel (codesOf pkts) hns 30 _]
  refine ⟨⟨?_, ?_⟩, ?_⟩
  · rw [printPhoto_allOk]
  · rw [printPhoto_allOk]
    dsimp only
    rw [hfound]
    simp only [reports_append]
    rw [List.getLast?_append_of_ne_nil _ (by simp [finishTrace, reports])]
    simp [finishTrace, reports]
  · intro o e he
    obtain ⟨n, _, _, h3, h4⟩ :=
      (preserves_printPhotoFold sentinel o img).firstErr run0 e rfl he
    exact ⟨n, h3, fun m hm => h4 m (Nat.zero_le m) hm⟩

theorem C6_poll_exhaustion_witness :
    pktRC1.returnCode ≠ 0
    ∧ (printPhoto 0 (allOk (fun _ => pktRC1)) []).err = Option.none
    ∧ (reports (printPhoto 0 (allOk (fun _ => pktRC1)) []).trace).getLast? =
        some (100, 100, stTimeout) := by
  have h := C6_poll_exhaustion 0 (fun _ => pktRC1) []
    (fun _ => (by decide : pktRC1.returnCode ≠ 0))
  exact ⟨by decide, h.1.1, h.1.2⟩

/-! ### C7 - getPrinterInformation -/

/-- C7: `getPrinterInformation` connects, issues exactly the Version,
ModelName and PrintCount queries in that order, closes, and returns the
mapping whose `version` is the Version reply's payload, `model` the
ModelName reply's `modelName` field, `battery` and `printCount` the
Version reply's header fields, `count` the PrintCount reply's
`printHistory` field, and `specs` the literal "unknown" - for any
scripted values (in particular version "1.00", model "SP-1", battery 80,
printCount 42 and any history list). -/
theorem C7_getPrinterInformation (vp : PayloadVal) (battery printCount : Nat)
    (mn : String) (hist : List Nat) (d : DecodedPacket) :
    getPrinterInformation (fun n =>
        if n = 1 then .ok { battery := battery, printCount := printCount,
                            returnCode := 0, payload := vp }
        else if n = 2 then .ok { d with payload := .modelName mn }
        else if n = 3 then .ok { d with payload := .printHistory hist }
        else .ok d) =
      ({ idx := 5,
         trace := [.call .connect, .call .version, .call .modelName, .call .printCount,
                   .call .close],
         err := Option.none },
       some { version := vp, model := some mn, battery := battery,
              printCount := printCount, specs := "unknown", count := some hist }) := by
  simp [getPrinterInformation, rcall, rcallR, run0, payloadModelName, payloadPrintHistory]

/-! ### C8 - progress-callback argument types -/

/-- C8 counterexample: for a 7-byte image the per-segment report passes
`current = 40 + 30 * 960 / 7 = 29080/7`, which is not an integer - the
Python expression `40 + 30 * bytesSent / len(imageBytes)` is float
division, not integer interpolation. -/
theorem C8_integer_cex :
    currents (printPhoto 0 (allOk (fun _ => defaultPacket)) (List.replicate 7 0)).trace =
      [0, 10, 20, 30, 40, 29080 / 7, 70, 90, 100]
    ∧ ¬ ∃ z : ℤ, (29080 / 7 : ℚ) = (z : ℚ) := by
  have h := currents_printPhoto 0 (fun _ => defaultPacket) (List.replicate 7 0)
  rw [currents_segEvents] at h
  norm_num [numSegs, List.range_succ] at h
  refine ⟨h, ?_⟩
  rintro ⟨z, hz⟩
  rw [div_eq_iff (by norm_num : (7 : ℚ) ≠ 0)] at hz
  have hz2 : (29080 : ℤ) = z * 7 := by exact_mod_cast hz
  omega

/-- C8 amended: every progress-callback invocation of `printPhoto`
passes the fixed total 100 (for every oracle, even failing runs), but
the `current` values are the exact rationals of the source expression:
the phase boundaries 0, 10, 20, 30, 40, 70, 90, 100 and the per-segment
values `40 + 30 * (960 * (k + 1)) / L`, which need not be integers when
`L` does not divide `28800 * (k + 1)`. -/
theorem C8_progress_values (sentinel : Nat) (o : Oracle) (pkts : Nat → DecodedPacket)
    (img : List Nat) :
    (∀ p ∈ reports (printPhoto sentinel o img).trace, p.2.1 = 100)
    ∧ currents (printPhoto sentinel (allOk pkts) img).trace =
        [0, 10, 20, 30, 40] ++
          (List.range (numSegs img.length)).map
            (fun i => 40 + 30 * ((0 + 960 * (i + 1) : Nat) : ℚ) / (img.length : ℚ)) ++
          [70, 90, 100] := by
  constructor
  · exact (preserves_printPhotoFold sentinel o img).totals run0
      (by intro p hp; simp [run0, reports] at hp)
  · rw [currents_printPhoto, currents_segEvents]

theorem C8_progress_values_witness :
    currents (printPhoto 0 (allOk (fun _ => defaultPacket)) []).trace =
      [0, 10, 20, 30, 40] ++
        (List.range (numSegs ([] : List Nat).length)).map
          (fun i => 40 + 30 * ((0 + 960 * (i + 1) : Nat) : ℚ) /
            ((([] : List Nat).length : Nat) : ℚ)) ++
        [70, 90, 100] :=
  (C8_progress_values 0 (allOk (fun _ => defaultPacket)) (fun _ => defaultPacket) []).2

end Instax
